import Mathlib

/-
Verification of the mnemosyne-splunk-datasource core logic
(src/datasource.ts) against its natural-language specification.

The TypeScript source is shallowly embedded:
- pure functions become Lean functions;
- the remote engine (job creation, status polls, page fetches) is an
  explicit oracle parameter: a status stream for the poll loop, a list
  of result pages for pagination, and an Except value for failures;
- JS "undefined or null" is Option.none; the ?? operator is modelled
  by jsOr / Option.getD;
- JS numbers are Int (configuration values) or Nat (counts, offsets).
-/

/-- Configuration options of the datasource (types.ts:SplunkDataSourceOptions,
restricted to the fields read by datasource.ts). Missing (undefined) numeric
fields are Option.none; missing booleans are false, matching JS truthiness. -/
structure SplunkDataSourceOptions where
  safeMode : Bool := false
  maxRangeSeconds : Option Int := none
  maxRows : Option Int := none
  pageSize : Option Int := none
  pollIntervalMs : Option Int := none
  maxPolls : Option Int := none
  bannedCommands : Option String := none
  allowDangerousCommands : Bool := false

-- ---------- Guardrails (datasource.ts lines 15-30) ----------

/-- Message returned by isQueryDangerous for an empty query. -/
def emptyQueryMsg : String := "Query is empty."

/-- Message returned by isQueryDangerous for a deny-listed query. -/
def riskyMsg : String := "Query includes a risky Splunk command and is blocked by guardrails."

/-- JS whitespace as removed by String.prototype.trim, restricted to the
ASCII cases: space, tab, line feed, vertical tab, form feed, carriage return. -/
def isSpaceChar (c : Char) : Bool :=
  c = ' ' || c = Char.ofNat 9 || c = Char.ofNat 10 || c = Char.ofNat 11
    || c = Char.ofNat 12 || c = Char.ofNat 13

/-- JS String.prototype.trim: drop leading and trailing whitespace. -/
def jsTrim (s : String) : String :=
  String.mk (((s.toList.dropWhile isSpaceChar).reverse.dropWhile isSpaceChar).reverse)

/-- Splits a character list at every line-feed character, keeping empty
pieces, as JS split with a newline separator does. -/
def splitLinesAux : List Char → List Char → List (List Char)
  | [], acc => [acc.reverse]
  | c :: rest, acc =>
    if c = Char.ofNat 10 then acc.reverse :: splitLinesAux rest []
    else splitLinesAux rest (c :: acc)

/-- JS split on a newline. -/
def jsSplitLines (s : String) : List String :=
  (splitLinesAux s.toList []).map String.mk

/-- Character-wise ASCII lowercasing, the effect of the case-insensitive
regex flag on the ASCII deny-list fragments. -/
def jsToLower (s : String) : String :=
  String.mk (s.toList.map Char.toLower)

/-- The double-quote character, kept out of character literals. -/
def quoteC : Char := Char.ofNat 34

/-- The backslash character, kept out of character literals. -/
def backslashC : Char := Char.ofNat 92

/-- Embeds compileBannedRegex up to the regex construction: the list of
deny-list fragments that end up inside the alternation.  The source trims
the whole setting, splits on newlines, trims each line and drops empty
lines; an empty setting yields no compiled regex, modelled as []. -/
def compileBannedParts (bannedCommands : Option String) : List String :=
  let src := jsTrim (bannedCommands.getD (""))
  if src.isEmpty then []
  else ((jsSplitLines src).map jsTrim).filter (fun s => !s.isEmpty)

/-- JS regex word character class (backslash-w): ASCII letters, digits, underscore. -/
def isWordChar (c : Char) : Bool := c.isAlphanum || c = '_'

/-- Whether position i of the character list holds a word character
(out of range counts as non-word, as at the ends of a JS string). -/
def wordAt (cs : List Char) (i : Nat) : Bool :=
  match cs.get? i with
  | some c => isWordChar c
  | none => false

/-- JS regex word boundary between positions i-1 and i: exactly one side
is a word character. -/
def boundaryAt (cs : List Char) (i : Nat) : Bool :=
  (if i = 0 then false else wordAt cs (i - 1)) != wordAt cs i

-- The deny-list entries are regex fragments (the shipped defaults are ten
-- literal command words plus the fragment map backslash-s plus backslash-
-- open-bracket), compiled into the single case-insensitive regex
-- word-boundary (fragment alternation) word-boundary and run with test.
-- The embedding interprets fragments with a small regex engine covering
-- literal characters, identity escapes, the classes backslash-s,
-- backslash-w, backslash-d, the dot, the quantifiers plus, star, question
-- mark, and alternation; a fragment outside this subset fails to parse.

/-- Abstract syntax of the modelled regex fragment subset.  Plus and
question-mark quantifiers are encoded with seq, star and alt at parse time. -/
inductive SplRegex where
  | emp : SplRegex
  | eps : SplRegex
  | lit (c : Char) : SplRegex
  | wsp : SplRegex
  | wrd : SplRegex
  | dgt : SplRegex
  | dot : SplRegex
  | seq (a b : SplRegex) : SplRegex
  | alt (a b : SplRegex) : SplRegex
  | star (a : SplRegex) : SplRegex
deriving DecidableEq

/-- Whether the regex accepts the empty string. -/
def nullable : SplRegex → Bool
  | SplRegex.emp => false
  | SplRegex.eps => true
  | SplRegex.lit _ => false
  | SplRegex.wsp => false
  | SplRegex.wrd => false
  | SplRegex.dgt => false
  | SplRegex.dot => false
  | SplRegex.seq a b => nullable a && nullable b
  | SplRegex.alt a b => nullable a || nullable b
  | SplRegex.star _ => true

/-- Brzozowski derivative: the residual regex after consuming one
character.  The dot excludes the line terminators, as in JS. -/
def rderiv : SplRegex → Char → SplRegex
  | SplRegex.emp, _ => SplRegex.emp
  | SplRegex.eps, _ => SplRegex.emp
  | SplRegex.lit a, c => if a = c then SplRegex.eps else SplRegex.emp
  | SplRegex.wsp, c => if isSpaceChar c then SplRegex.eps else SplRegex.emp
  | SplRegex.wrd, c => if isWordChar c then SplRegex.eps else SplRegex.emp
  | SplRegex.dgt, c => if c.isDigit then SplRegex.eps else SplRegex.emp
  | SplRegex.dot, c =>
    if c = Char.ofNat 10 || c = Char.ofNat 13 then SplRegex.emp else SplRegex.eps
  | SplRegex.seq a b, c =>
    if nullable a then SplRegex.alt (SplRegex.seq (rderiv a c) b) (rderiv b c)
    else SplRegex.seq (rderiv a c) b
  | SplRegex.alt a b, c => SplRegex.alt (rderiv a c) (rderiv b c)
  | SplRegex.star a, c => SplRegex.seq (rderiv a c) (SplRegex.star a)

/-- The regex matches exactly the whole character list. -/
def rmatch (r : SplRegex) (cs : List Char) : Bool :=
  nullable (cs.foldl rderiv r)

/-- Regex metacharacters, named to keep punctuation out of character
literals. -/
def barC : Char := Char.ofNat 124

/-- The star character. -/
def starC : Char := Char.ofNat 42

/-- The plus character. -/
def plusC : Char := Char.ofNat 43

/-- The question-mark character. -/
def optC : Char := Char.ofNat 63

/-- The dot character. -/
def dotC : Char := Char.ofNat 46

/-- The opening parenthesis. -/
def lparC : Char := Char.ofNat 40

/-- The closing parenthesis. -/
def rparC : Char := Char.ofNat 41

/-- The opening square bracket. -/
def lbrkC : Char := Char.ofNat 91

/-- The closing square bracket. -/
def rbrkC : Char := Char.ofNat 93

/-- The opening curly brace. -/
def lbrcC : Char := Char.ofNat 123

/-- The closing curly brace. -/
def rbrcC : Char := Char.ofNat 125

/-- The caret character. -/
def caretC : Char := Char.ofNat 94

/-- The dollar character. -/
def dollarC : Char := Char.ofNat 36

/-- One lexical token of a regex fragment. -/
inductive RTok where
  | lit (c : Char) : RTok
  | wsp : RTok
  | wrd : RTok
  | dgt : RTok
  | dot : RTok
  | star : RTok
  | plus : RTok
  | opt : RTok
  | bar : RTok

/-- Token for a backslash escape: the three supported classes, or an
identity escape of a non-alphanumeric character; letter and digit escapes
other than s, w, d (backreferences, anchors, named classes) are outside
the modelled subset. -/
def escapeTok (e : Char) : Option RTok :=
  if e = 's' then some RTok.wsp
  else if e = 'w' then some RTok.wrd
  else if e = 'd' then some RTok.dgt
  else if e.isAlphanum then none
  else some (RTok.lit e)

/-- Token for an unescaped character: quantifiers, alternation bar and dot
are operators; groups, classes, braces and anchors are outside the
modelled subset; everything else is a literal. -/
def plainTok (c : Char) : Option RTok :=
  if c = barC then some RTok.bar
  else if c = starC then some RTok.star
  else if c = plusC then some RTok.plus
  else if c = optC then some RTok.opt
  else if c = dotC then some RTok.dot
  else if c = backslashC then none
  else if c = lparC || c = rparC || c = lbrkC || c = rbrkC || c = lbrcC || c = rbrcC
      || c = caretC || c = dollarC then none
  else some (RTok.lit c)

/-- Lexes a fragment; none when it uses a construct outside the subset or
ends in a dangling backslash. -/
def tokenize : List Char → Option (List RTok)
  | [] => some []
  | [c] =>
    if c = backslashC then none
    else
      match plainTok c with
      | some t => some [t]
      | none => none
  | c :: e :: rest =>
    if c = backslashC then
      match escapeTok e with
      | some t =>
        match tokenize rest with
        | some ts => some (t :: ts)
        | none => none
      | none => none
    else
      match plainTok c with
      | some t =>
        match tokenize (e :: rest) with
        | some ts => some (t :: ts)
        | none => none
      | none => none

/-- Splits a token list at the alternation bars. -/
def splitBars : List RTok → List RTok → List (List RTok)
  | [], acc => [acc.reverse]
  | t :: rest, acc =>
    match t with
    | RTok.bar => acc.reverse :: splitBars rest []
    | _ => splitBars rest (t :: acc)

/-- Parses one bar-free piece into its reversed atom list.  A quantifier
applies to the directly preceding atom and may not follow another
quantifier or start the piece, as in JS. -/
def parseSeqAux : List RTok → List SplRegex → Bool → Option (List SplRegex)
  | [], acc, _ => some acc
  | RTok.bar :: _, _, _ => none
  | RTok.star :: rest, acc, canQ =>
    if canQ then
      match acc with
      | a :: as2 => parseSeqAux rest (SplRegex.star a :: as2) false
      | [] => none
    else none
  | RTok.plus :: rest, acc, canQ =>
    if canQ then
      match acc with
      | a :: as2 => parseSeqAux rest (SplRegex.seq a (SplRegex.star a) :: as2) false
      | [] => none
    else none
  | RTok.opt :: rest, acc, canQ =>
    if canQ then
      match acc with
      | a :: as2 => parseSeqAux rest (SplRegex.alt a SplRegex.eps :: as2) false
      | [] => none
    else none
  | RTok.lit c :: rest, acc, _ => parseSeqAux rest (SplRegex.lit c :: acc) true
  | RTok.wsp :: rest, acc, _ => parseSeqAux rest (SplRegex.wsp :: acc) true
  | RTok.wrd :: rest, acc, _ => parseSeqAux rest (SplRegex.wrd :: acc) true
  | RTok.dgt :: rest, acc, _ => parseSeqAux rest (SplRegex.dgt :: acc) true
  | RTok.dot :: rest, acc, _ => parseSeqAux rest (SplRegex.dot :: acc) true

/-- Parses one bar-free piece into a regex (concatenation of its atoms). -/
def parseSeq (ts : List RTok) : Option SplRegex :=
  match parseSeqAux ts [] false with
  | some acc => some ((acc.reverse).foldr SplRegex.seq SplRegex.eps)
  | none => none

/-- Parses every piece of an alternation. -/
def parsePieces : List (List RTok) → Option (List SplRegex)
  | [] => some []
  | p :: rest =>
    match parseSeq p, parsePieces rest with
    | some r, some rs => some (r :: rs)
    | _, _ => none

/-- Parses a deny-list fragment into a regex; none outside the subset. -/
def parseFragment (frag : String) : Option SplRegex :=
  match tokenize frag.toList with
  | some ts =>
    match parsePieces (splitBars ts []) with
    | some rs => some (rs.foldr SplRegex.alt SplRegex.emp)
    | none => none
  | none => none

/-- ASCII-lowercases every literal of a regex: together with lowering the
text this models the case-insensitive flag. -/
def lowerRegex : SplRegex → SplRegex
  | SplRegex.lit c => SplRegex.lit c.toLower
  | SplRegex.seq a b => SplRegex.seq (lowerRegex a) (lowerRegex b)
  | SplRegex.alt a b => SplRegex.alt (lowerRegex a) (lowerRegex b)
  | SplRegex.star a => SplRegex.star (lowerRegex a)
  | r => r

/-- Embeds test of word-boundary (r) word-boundary on the text: some
substring of the text, delimited by word boundaries on both sides, is
matched by r.  Search position and greediness do not affect existence, so
this is the exact meaning of the source's re.test. -/
def regexWordTest (text : List Char) (r : SplRegex) : Bool :=
  (List.range (text.length + 1)).any (fun i =>
    (List.range (text.length + 1 - i)).any (fun d =>
      rmatch r ((text.drop i).take d) && boundaryAt text i && boundaryAt text (i + d)))

/-- Whether one configured fragment makes the compiled deny-list regex
match the text: parse the fragment, lowercase regex and text, and run the
word-boundary test.  A fragment outside the modelled subset is treated as
non-matching; the C2 theorem therefore carries the hypothesis that every
configured fragment parses. -/
def fragmentBlocks (text : String) (frag : String) : Bool :=
  match parseFragment frag with
  | some r => regexWordTest ((jsToLower text).toList) (lowerRegex r)
  | none => false

/-- Embeds isQueryDangerous (datasource.ts lines 23-30): none means allowed,
some reason means blocked.  test runs on the trimmed text, as in the source. -/
def isQueryDangerous (q : Option String) (opts : SplunkDataSourceOptions) : Option String :=
  if (jsTrim (q.getD (""))).isEmpty then some emptyQueryMsg
  else if opts.allowDangerousCommands then none
  else if (compileBannedParts opts.bannedCommands).any
      (fun p => fragmentBlocks (jsTrim (q.getD (""))) p) then some riskyMsg
  else none

-- ---------- Variable interpolation (datasource.ts lines 42-66) ----------

/-- A one-character string holding a double quote. -/
def dq : String := String.mk [quoteC]

/-- Embeds escapeSplunkValue: the global regex replace prepends a backslash
to every double quote and every backslash, character by character. -/
def escapeSplunkValue (v : String) : String :=
  String.mk ((v.toList.map
    (fun c => if c = quoteC || c = backslashC then [backslashC, c] else [c])).flatten)

/-- A Grafana variable binding as seen by the interpolation formatter:
null/undefined, a single value (already stringified), or an array of values. -/
inductive VarValue where
  | null : VarValue
  | single (s : String) : VarValue
  | multi (vs : List String) : VarValue

/-- Embeds the formatter closure inside interpolateSPL: null becomes the
empty string; an array is escaped and quoted elementwise then OR-joined in
parentheses when it has more than one element; a single value is escaped
with no quotes added. -/
def splFormatter : VarValue → String
  | VarValue.null => ""
  | VarValue.single s => escapeSplunkValue s
  | VarValue.multi vs =>
    let parts := vs.map (fun v => dq ++ escapeSplunkValue v ++ dq)
    if parts.length > 1 then "(" ++ String.intercalate (" OR ") parts ++ ")"
    else parts.headD ("")

-- ---------- Effective (clamped) configuration values ----------

/-- Effective page size (datasource.ts line 148): the configured value,
defaulted to 200, clamped into [1, 5000]. -/
def effPageSize (opts : SplunkDataSourceOptions) : Nat :=
  (max 1 (min (opts.pageSize.getD 200) 5000)).toNat

/-- Effective row cap (datasource.ts line 149): the configured value,
defaulted to 2000, clamped to at least 0.  0 means unlimited. -/
def effMaxRows (opts : SplunkDataSourceOptions) : Nat :=
  (max 0 (opts.maxRows.getD 2000)).toNat

/-- Effective poll interval in milliseconds (datasource.ts line 257). -/
def effPollMs (opts : SplunkDataSourceOptions) : Int :=
  max 100 (opts.pollIntervalMs.getD 1000)

/-- Effective poll budget (datasource.ts line 258). -/
def effMaxPolls (opts : SplunkDataSourceOptions) : Nat :=
  (max 1 (opts.maxPolls.getD 30)).toNat

-- ---------- Row mapping (datasource.ts lines 158-162) ----------

/-- One raw result record, restricted to the fields the row mapper reads.
The field carrying the underscore-time value is embedded already parsed:
some v is the millisecond value Date.parse yields on it, none means the
field is absent or unparsable (Date.parse gave NaN).  String fields are
none when absent or null, mirroring the ?? chains in the source. -/
structure ResultRecord where
  timeField : Option Int := none
  host : Option String := none
  sourceHost : Option String := none
  hosts : Option String := none
  rawField : Option String := none
  message : Option String := none
  msgField : Option String := none

/-- JS null-coalescing on optional strings: a ?? b. -/
def jsOr (a b : Option String) : Option String :=
  match a with
  | some v => some v
  | none => b

/-- One normalized output row (the fields of the result table frame). -/
structure OutRow where
  time : Int
  host : String
  message : String

/-- Embeds the row-mapping loop body (datasource.ts lines 158-162).
Date.parse(r._time) || Date.now() falls back to now when the parse result
is falsy, i.e. NaN (modelled as none) or 0; now stands for the Date.now()
call at mapping time. -/
def mapRow (now : Int) (r : ResultRecord) : OutRow :=
  { time :=
      match r.timeField with
      | some v => if v = 0 then now else v
      | none => now,
    host := (jsOr (jsOr r.host r.sourceHost) r.hosts).getD (""),
    message := (jsOr (jsOr r.rawField r.message) r.msgField).getD ("") }

-- ---------- Result pagination (datasource.ts lines 150-170) ----------

/-- Embeds the pagination while-loop.  pages is the oracle for the remote
engine: the k-th element is the results array the k-th fetchResults call
returns (an exhausted oracle answers with an empty page).  Returns the
collected records together with the trace of (count, offset) arguments of
every fetchResults call issued. -/
def paginateAux (pageSize maxRows : Nat) (pages : List (List ResultRecord))
    (offset total : Nat) : List ResultRecord × List (Nat × Nat) :=
  match pages with
  | [] => ([], [(pageSize, offset)])
  | rows :: rest =>
    if rows.length = 0 then ([], [(pageSize, offset)])
    else if 0 < maxRows ∧ maxRows ≤ total + rows.length then (rows, [(pageSize, offset)])
    else if rows.length < pageSize then (rows, [(pageSize, offset)])
    else
      ((rows ++ (paginateAux pageSize maxRows rest (offset + rows.length) (total + rows.length)).1),
        ((pageSize, offset) ::
          (paginateAux pageSize maxRows rest (offset + rows.length) (total + rows.length)).2))

/-- Pagination as run by query: clamped page size and row cap, starting at
offset 0 with zero rows collected. -/
def paginate (opts : SplunkDataSourceOptions) (pages : List (List ResultRecord)) :
    List ResultRecord × List (Nat × Nat) :=
  paginateAux (effPageSize opts) (effMaxRows opts) pages 0 0

-- ---------- Job status and poll loop (datasource.ts lines 256-278) ----------

/-- Status payload content (SplunkJobStatusData entry content). -/
structure JobStatusContent where
  isDone : Option Bool := none
  dispatchState : Option String := none

/-- One entry of the status payload. -/
structure JobEntry where
  content : Option JobStatusContent := none

/-- The status payload: data.entry is an optional array of entries. -/
structure SplunkJobStatusData where
  entry : Option (List JobEntry) := none

/-- The optional chain data.entry?.[0]?.content. -/
def statusContent (d : SplunkJobStatusData) : Option JobStatusContent :=
  match (d.entry.getD []).head? with
  | some e => e.content
  | none => none

/-- The optional chain entry?.content?.isDone. -/
def doneFlag (d : SplunkJobStatusData) : Option Bool :=
  match statusContent d with
  | some c => c.isDone
  | none => none

/-- The optional chain entry?.content?.dispatchState. -/
def dispatchStateOf (d : SplunkJobStatusData) : Option String :=
  match statusContent d with
  | some c => c.dispatchState
  | none => none

/-- Embeds isJobDone (datasource.ts lines 268-278): double-negation of the
completion flag, or a dispatch state strictly equal to one of the three
uppercase tokens. -/
def isJobDone (d : SplunkJobStatusData) : Bool :=
  (doneFlag d).getD false || dispatchStateOf d == some ("DONE")
    || dispatchStateOf d == some ("PAUSED") || dispatchStateOf d == some ("FINALIZING")

/-- The poll-timeout error message thrown by waitForJob. -/
def pollTimeoutMsg : String := "Splunk job did not complete within polling limits"

/-- Embeds the waitForJob loop.  statusAt is the oracle for the remote
engine: statusAt i is the payload the i-th status check returns.  Success
carries the number of status checks performed. -/
def waitAux (statusAt : Nat → SplunkJobStatusData) : Nat → Nat → Except String Nat
  | _, 0 => Except.error pollTimeoutMsg
  | i, Nat.succ fuel =>
    if isJobDone (statusAt i) then Except.ok (i + 1) else waitAux statusAt (i + 1) fuel

/-- waitForJob with the clamped poll budget (datasource.ts lines 256-266). -/
def waitForJob (opts : SplunkDataSourceOptions) (statusAt : Nat → SplunkJobStatusData) :
    Except String Nat :=
  waitAux statusAt 0 (effMaxPolls opts)

/-- Number of status checks waitForJob performs: the count it reports on
success, the whole budget on timeout. -/
def waitChecks (opts : SplunkDataSourceOptions) (statusAt : Nat → SplunkJobStatusData) : Nat :=
  match waitForJob opts statusAt with
  | Except.ok n => n
  | Except.error _ => effMaxPolls opts

-- ---------- Query orchestration (datasource.ts lines 87-188) ----------

/-- One query target (types.ts:SplunkQuery restricted to the fields query
reads; hide comes from the Grafana DataQuery base type). -/
structure SplunkQuery where
  refId : String := "A"
  queryText : Option String := none
  hide : Bool := false

/-- One produced DataFrame, by shape: a result table, a single-row warning
frame (guardrail block), a single-row error frame (failure), or the single
batch-level time-range guardrail frame. -/
inductive Frame where
  | table (refId : String) (rows : List OutRow) : Frame
  | warn (refId : String) (msg : String) : Frame
  | err (refId : String) (msg : String) : Frame
  | rangeInfo (msg : String) : Frame

/-- The interpolated message of the time-range guardrail frame. -/
def rangeMsg (rangeSec maxRangeSec : Int) : String :=
  "Time range (" ++ toString rangeSec ++ "s) exceeds the configured cap ("
    ++ toString maxRangeSec ++ "s)."

/-- Embeds the per-target body of the query loop (datasource.ts lines
113-184).  itp stands for the external template service interpolation
(getTemplateSrv().replace with the splFormatter); eng is the oracle for this
target's remote execution: an error thrown anywhere in the try block
(job creation, polling, or a fetch), or the sequence of result pages. -/
def processTarget (opts : SplunkDataSourceOptions) (now : Int) (itp : String → String)
    (t : SplunkQuery) (eng : Except String (List (List ResultRecord))) : Frame :=
  match isQueryDangerous (some (itp (t.queryText.getD ("")))) opts with
  | some v => Frame.warn t.refId v
  | none =>
    match eng with
    | Except.error msg => Frame.err t.refId msg
    | Except.ok pages => Frame.table t.refId ((paginate opts pages).1.map (mapRow now))

/-- The for-loop over req.targets, with the original target index threaded
so each target consumes only its own engine oracle. -/
def queryLoop (opts : SplunkDataSourceOptions) (now : Int) (itp : String → String)
    (eng : Nat → Except String (List (List ResultRecord))) :
    Nat → List SplunkQuery → List Frame
  | _, [] => []
  | i, t :: rest =>
    if t.hide then queryLoop opts now itp eng (i + 1) rest
    else processTarget opts now itp t (eng i) :: queryLoop opts now itp eng (i + 1) rest

/-- Embeds query (datasource.ts lines 87-188).  rangeSec is the ceiled
second span of the request range; when safe mode is on and it exceeds the
cap, the single batch-level guardrail frame is the whole answer. -/
def query (opts : SplunkDataSourceOptions) (now : Int) (itp : String → String)
    (rangeSec : Int) (targets : List SplunkQuery)
    (eng : Nat → Except String (List (List ResultRecord))) : List Frame :=
  if opts.safeMode ∧ (opts.maxRangeSeconds.getD 86400) < rangeSec then
    [Frame.rangeInfo (rangeMsg rangeSec (opts.maxRangeSeconds.getD 86400))]
  else queryLoop opts now itp eng 0 targets

/-- Row count of a frame: the table length for a result table, 0 for the
single-message diagnostic frames. -/
def frameRowCount : Frame → Nat
  | Frame.table _ rows => rows.length
  | Frame.warn _ _ => 0
  | Frame.err _ _ => 0
  | Frame.rangeInfo _ => 0

-- ---------- metricFindQuery (datasource.ts lines 191-220) ----------

/-- The results payload of a fetchResults call, as metricFindQuery reads it:
results is an optional array of records, each an ordered key/value object
(value none models a null field), fields an optional array of field names. -/
structure SplunkResultsData where
  results : Option (List (List (String × Option String))) := none
  fields : Option (List String) := none

/-- JS property access r[k] on an object modelled as an ordered key list:
the first matching key's value, none when the key is missing or null. -/
def recLookup (r : List (String × Option String)) (k : String) : Option String :=
  match r.find? (fun p => p.1 == k) with
  | some p => p.2
  | none => none

/-- JS falsiness of an optional string: undefined or the empty string. -/
def jsFalsyStr : Option String → Bool
  | none => true
  | some s => s.isEmpty

/-- Embeds the result-processing tail of metricFindQuery (datasource.ts
lines 206-216): pick the first field name (from fields, else the first key
of the first row), project it out of every row, drop null and empty values,
and duplicate each value into a (text, value) pair. -/
def metricFindValues (res : SplunkResultsData) : List (String × String) :=
  let rows := res.results.getD []
  if rows.length = 0 then []
  else
    let ff0 : Option String := (res.fields.getD []).head?
    let ff : Option String :=
      if jsFalsyStr ff0 then ((rows.headD []).map Prod.fst).head? else ff0
    if jsFalsyStr ff then []
    else
      ((rows.map (fun r => recLookup r (ff.getD ("")))).filter
        (fun v => match v with
          | some s => !s.isEmpty
          | none => false)).map (fun v => (v.getD (""), v.getD ("")))

/-- Embeds metricFindQuery (datasource.ts lines 191-220): interpolate,
gate on the guardrails (blocked means an empty list), then run the job and
page fetch, any thrown error being swallowed into an empty list. -/
def metricFindQuery (opts : SplunkDataSourceOptions) (itp : String → String)
    (raw : String) (eng : Except String SplunkResultsData) : List (String × String) :=
  match isQueryDangerous (some (itp raw)) opts with
  | some _ => []
  | none =>
    match eng with
    | Except.error _ => []
    | Except.ok res => metricFindValues res

-- ---------- Sanity checks of the embedded regex semantics ----------

example : isQueryDangerous (some ("a | delete b"))
    ({ bannedCommands := some ("delete") }) = some riskyMsg := by decide

example : isQueryDangerous (some ("search DELETED"))
    ({ bannedCommands := some ("delete") }) = none := by decide

example : isQueryDangerous (some ("a DeLeTe b"))
    ({ bannedCommands := some ("delete") }) = some riskyMsg := by decide

example : isQueryDangerous (some ("my_delete x"))
    ({ bannedCommands := some ("delete") }) = none := by decide

example : isQueryDangerous (some ("a | map [b]"))
    ({ bannedCommands := some ("map\\s+\\[") }) = some riskyMsg := by decide

example : isQueryDangerous (some ("a | map[b]"))
    ({ bannedCommands := some ("map\\s+\\[") }) = none := by decide

-- ---------- Claims ----------

/-- Claim C2: the Guardrail Evaluator blocks every query whose trimmed text
is empty, regardless of allowDangerousCommands; on configurations whose
deny-list fragments all lie in the modelled regex subset, a non-empty query
is blocked exactly when allowDangerousCommands is unset and some configured
fragment, read as a regex wrapped in word boundaries, matches a substring
of the query case-insensitively; every other non-empty query is allowed. -/
theorem c2_guardrail_evaluator :
    (∀ (opts : SplunkDataSourceOptions) (q : Option String),
      (jsTrim (q.getD (""))).isEmpty = true → (isQueryDangerous q opts).isSome = true) ∧
    (∀ (opts : SplunkDataSourceOptions) (q : Option String),
      (jsTrim (q.getD (""))).isEmpty = false →
      (∀ p, p ∈ compileBannedParts opts.bannedCommands → (parseFragment p).isSome = true) →
        ((isQueryDangerous q opts).isSome = true ↔
          (opts.allowDangerousCommands = false ∧
            ∃ p, p ∈ compileBannedParts opts.bannedCommands ∧
              ∃ r, parseFragment p = some r ∧
                regexWordTest ((jsToLower (jsTrim (q.getD ("")))).toList)
                  (lowerRegex r) = true))) := by
  constructor
  · intro opts q h
    simp [isQueryDangerous, h]
  · intro opts q h _hfr
    have key : (compileBannedParts opts.bannedCommands).any
        (fun p => fragmentBlocks (jsTrim (q.getD (""))) p) = true ↔
        ∃ p, p ∈ compileBannedParts opts.bannedCommands ∧
          ∃ r, parseFragment p = some r ∧
            regexWordTest ((jsToLower (jsTrim (q.getD ("")))).toList)
              (lowerRegex r) = true := by
      rw [List.any_eq_true]
      constructor
      · rintro ⟨p, hp, hb⟩
        refine ⟨p, hp, ?_⟩
        unfold fragmentBlocks at hb
        cases hpr : parseFragment p with
        | none =>
          rw [hpr] at hb
          simp at hb
        | some r =>
          rw [hpr] at hb
          exact ⟨r, rfl, hb⟩
      · rintro ⟨p, hp, r, hr, ht⟩
        refine ⟨p, hp, ?_⟩
        unfold fragmentBlocks
        rw [hr]
        exact ht
    cases ha : opts.allowDangerousCommands
    · have lhs_iff : (isQueryDangerous q opts).isSome = true ↔
          (compileBannedParts opts.bannedCommands).any
            (fun p => fragmentBlocks (jsTrim (q.getD (""))) p) = true := by
        cases hm : (compileBannedParts opts.bannedCommands).any
            (fun p => fragmentBlocks (jsTrim (q.getD (""))) p)
        · simp [isQueryDangerous, h, ha, hm]
        · simp [isQueryDangerous, h, ha, hm]
      rw [lhs_iff, key]
      simp
    · simp [isQueryDangerous, h, ha]

/-- The deny-list shipped as the ConfigEditor default: ten literal command
words plus the fragment matching the map command followed by whitespace and
an opening bracket. -/
def defaultBannedCommands : String :=
  "outputlookup\nsendemail\nrest\ndelete\ncollect\nsendalert\nrunshellscript\nscript\nmcollect\nloadjob\nmap\\s+\\["

/-- The regex the embedding parses from the deny-list fragment delete. -/
def c2DelRegex : SplRegex :=
  SplRegex.alt (SplRegex.seq (SplRegex.lit 'd') (SplRegex.seq (SplRegex.lit 'e')
    (SplRegex.seq (SplRegex.lit 'l') (SplRegex.seq (SplRegex.lit 'e')
      (SplRegex.seq (SplRegex.lit 't') (SplRegex.seq (SplRegex.lit 'e')
        SplRegex.eps)))))) SplRegex.emp

/-- Witness for C2: the whitespace-only query is blocked under the default
configuration, and under the full shipped deny-list (whose eleven fragments
all parse in the modelled subset) a query containing the delete command is
blocked. -/
theorem c2_witness :
    (isQueryDangerous (some ("   ")) ({} : SplunkDataSourceOptions)).isSome = true ∧
    (isQueryDangerous (some ("a | delete b"))
        ({ bannedCommands := some defaultBannedCommands }
          : SplunkDataSourceOptions)).isSome = true := by
  constructor
  · exact c2_guardrail_evaluator.1 {} (some ("   ")) (by decide)
  · apply (c2_guardrail_evaluator.2 ({ bannedCommands := some defaultBannedCommands })
      (some ("a | delete b")) (by decide) (by decide)).mpr
    refine ⟨rfl, ("delete"), ?_, c2DelRegex, ?_, ?_⟩
    · decide
    · decide
    · decide

/-- Claim C3: the interpolation formatter maps null to the empty string, a
single value to its escaped form with no quotes added, a multi-element array
to the parenthesised OR-join of the escaped quoted elements, a one-element
array to just the one quoted escaped value; escaping backslash-escapes every
double quote and backslash, so the three-character value a,quote,b becomes
the four-character value a,backslash,quote,b. -/
theorem c3_interpolation_formatter :
    splFormatter VarValue.null = "" ∧
    (∀ s, splFormatter (VarValue.single s) = escapeSplunkValue s) ∧
    (∀ v, splFormatter (VarValue.multi [v]) = dq ++ escapeSplunkValue v ++ dq) ∧
    (∀ vs, 2 ≤ vs.length →
      splFormatter (VarValue.multi vs) =
        "(" ++ String.intercalate (" OR ")
          (vs.map (fun v => dq ++ escapeSplunkValue v ++ dq)) ++ ")") ∧
    escapeSplunkValue (String.mk ['a', quoteC, 'b'])
      = String.mk ['a', backslashC, quoteC, 'b'] := by
  refine ⟨rfl, fun s => rfl, fun v => rfl, ?_, by decide⟩
  intro vs h
  have hlen : (vs.map (fun v => dq ++ escapeSplunkValue v ++ dq)).length > 1 := by
    simpa using h
  simp only [splFormatter, if_pos hlen]

/-- Witness for C3 at the concrete two-element binding. -/
theorem c3_witness :
    splFormatter (VarValue.multi [("a"), ("b")]) =
      "(" ++ String.intercalate (" OR ")
        ([("a"), ("b")].map (fun v => dq ++ escapeSplunkValue v ++ dq)) ++ ")" :=
  c3_interpolation_formatter.2.2.2.1 [("a"), ("b")] (by decide)

/-- What a successful waitAux run means, for any start index: success after
n checks implies n lands in the window, the last checked status is done and
every earlier one in the window is not. -/
theorem waitAux_ok_spec (statusAt : Nat → SplunkJobStatusData) :
    ∀ (fuel i n : Nat), waitAux statusAt i fuel = Except.ok n →
      i < n ∧ n ≤ i + fuel ∧ isJobDone (statusAt (n - 1)) = true ∧
        ∀ k, i ≤ k → k < n - 1 → isJobDone (statusAt k) = false := by
  intro fuel
  induction fuel with
  | zero =>
    intro i n h
    simp [waitAux] at h
  | succ f ih =>
    intro i n h
    by_cases hd : isJobDone (statusAt i) = true
    · simp [waitAux, hd] at h
      subst h
      refine ⟨by omega, by omega, by simpa using hd, ?_⟩
      intro k hk1 hk2
      exact absurd hk2 (by omega)
    · have hd2 : isJobDone (statusAt i) = false := by
        revert hd
        cases isJobDone (statusAt i) <;> simp
      simp [waitAux, hd2] at h
      obtain ⟨h1, h2, h3, h4⟩ := ih (i + 1) n h
      refine ⟨by omega, by omega, h3, ?_⟩
      intro k hk1 hk2
      rcases Nat.eq_or_lt_of_le hk1 with he | hl
      · cases he
        exact hd2
      · exact h4 k (by omega) hk2

/-- waitAux times out exactly when no status in the checked window reports
done. -/
theorem waitAux_error_iff (statusAt : Nat → SplunkJobStatusData) :
    ∀ (fuel i : Nat),
      (waitAux statusAt i fuel = Except.error pollTimeoutMsg ↔
        ∀ k, k < fuel → isJobDone (statusAt (i + k)) = false) := by
  intro fuel
  induction fuel with
  | zero =>
    intro i
    simp [waitAux]
  | succ f ih =>
    intro i
    by_cases hd : isJobDone (statusAt i) = true
    · constructor
      · intro h
        simp [waitAux, hd] at h
      · intro hall
        exact absurd (by simpa using hall 0 (by omega)) (by simp [hd])
    · have hd2 : isJobDone (statusAt i) = false := by
        revert hd
        cases isJobDone (statusAt i) <;> simp
      constructor
      · intro h
        simp only [waitAux, hd2] at h
        simp at h
        intro k hk
        cases k with
        | zero => simpa using hd2
        | succ k2 =>
          have hh := (ih (i + 1)).mp h k2 (by omega)
          rw [show i + (k2 + 1) = (i + 1) + k2 by omega]
          exact hh
      · intro hall
        simp only [waitAux, hd2]
        simp
        apply (ih (i + 1)).mpr
        intro k hk
        rw [show (i + 1) + k = i + (k + 1) by omega]
        exact hall (k + 1) (by omega)

/-- waitAux succeeds after exactly j+1 checks when the j-th status in the
window is the first one reporting done. -/
theorem waitAux_first_done (statusAt : Nat → SplunkJobStatusData) :
    ∀ (fuel i j : Nat), j < fuel → isJobDone (statusAt (i + j)) = true →
      (∀ k, k < j → isJobDone (statusAt (i + k)) = false) →
      waitAux statusAt i fuel = Except.ok (i + j + 1) := by
  intro fuel
  induction fuel with
  | zero =>
    intro i j hj hd hmin
    exact absurd hj (Nat.not_lt_zero j)
  | succ f ih =>
    intro i j hj hd hmin
    cases j with
    | zero =>
      have hd0 : isJobDone (statusAt i) = true := by simpa using hd
      simp [waitAux, hd0]
    | succ j2 =>
      have hd0 : isJobDone (statusAt i) = false := by simpa using hmin 0 (by omega)
      simp only [waitAux, hd0]
      simp
      have hh := ih (i + 1) j2 (by omega)
        (by rw [show (i + 1) + j2 = i + (j2 + 1) by omega]; exact hd)
        (fun k hk => by
          rw [show (i + 1) + k = i + (k + 1) by omega]
          exact hmin (k + 1) (by omega))
      rw [show i + (j2 + 1) + 1 = (i + 1) + j2 + 1 by omega]
      exact hh

/-- Counterexample input for C4: a payload whose dispatch state is the
lowercase done token. -/
def lowerDoneStatus : SplunkJobStatusData :=
  { entry := some [{ content := some { dispatchState := some ("done") } }] }

/-- Claim C4 counterexample: a status payload carrying the lowercase
dispatch state done is not treated as done, because the source compares the
state case-sensitively against the uppercase tokens.  This refutes the
claim as stated at a concrete input. -/
theorem c4_counterexample :
    dispatchStateOf lowerDoneStatus = some ("done") ∧ isJobDone lowerDoneStatus = false := by
  constructor
  · rfl
  · decide

/-- Claim C4 (amended): a check reports done exactly when the payload
carries a true completion flag or a dispatch state equal (case-sensitively)
to the uppercase tokens DONE, PAUSED or FINALIZING; waitForJob performs at
most maxPolls checks, it times out with the poll-timeout error exactly when
no check in the budget reports done, and it succeeds right after the first
check that reports done. -/
theorem c4_poll_loop_amended (opts : SplunkDataSourceOptions)
    (statusAt : Nat → SplunkJobStatusData) :
    (∀ d : SplunkJobStatusData,
      isJobDone d = true ↔
        (doneFlag d = some true ∨ dispatchStateOf d = some ("DONE")
          ∨ dispatchStateOf d = some ("PAUSED") ∨ dispatchStateOf d = some ("FINALIZING"))) ∧
    (waitForJob opts statusAt = Except.error pollTimeoutMsg ↔
      ∀ k, k < effMaxPolls opts → isJobDone (statusAt k) = false) ∧
    (∀ n, waitForJob opts statusAt = Except.ok n →
      1 ≤ n ∧ n ≤ effMaxPolls opts ∧ isJobDone (statusAt (n - 1)) = true ∧
        ∀ k, k < n - 1 → isJobDone (statusAt k) = false) ∧
    (∀ j, j < effMaxPolls opts → isJobDone (statusAt j) = true →
      (∀ k, k < j → isJobDone (statusAt k) = false) →
      waitForJob opts statusAt = Except.ok (j + 1)) := by
  refine ⟨?_, ?_, ?_, ?_⟩
  · intro d
    cases hdf : doneFlag d with
    | none =>
      simp only [isJobDone, hdf, Option.getD_none, Bool.false_or, Bool.or_eq_true, beq_iff_eq]
      tauto
    | some b =>
      cases b <;>
        simp only [isJobDone, hdf, Option.getD_some, Bool.false_or, Bool.true_or,
          Bool.or_eq_true, beq_iff_eq, Option.some.injEq] <;>
        tauto
  · have hh := waitAux_error_iff statusAt (effMaxPolls opts) 0
    unfold waitForJob
    simpa using hh
  · intro n h
    obtain ⟨h1, h2, h3, h4⟩ := waitAux_ok_spec statusAt (effMaxPolls opts) 0 n h
    exact ⟨by omega, by simpa using h2, h3, fun k hk => h4 k (by omega) hk⟩
  · intro j hj hd hmin
    have hh := waitAux_first_done statusAt (effMaxPolls opts) 0 j hj (by simpa using hd)
      (fun k hk => by simpa using hmin k hk)
    simpa using hh

/-- Witness input for C4: a payload carrying a true completion flag. -/
def allDoneStatus : SplunkJobStatusData :=
  { entry := some [{ content := some { isDone := some true } }] }

/-- Witness for C4: with every check reporting done, waitForJob succeeds
after exactly one check under the default configuration. -/
theorem c4_witness :
    waitForJob ({} : SplunkDataSourceOptions) (fun _ => allDoneStatus) = Except.ok 1 :=
  (c4_poll_loop_amended {} (fun _ => allDoneStatus)).2.2.2 0 (by decide)
    (by decide) (fun k hk => absurd hk (by omega))

/-- The clamped page size is always positive. -/
theorem effPageSize_pos (opts : SplunkDataSourceOptions) : 0 < effPageSize opts := by
  unfold effPageSize
  omega

/-- Claim C5: pagination starts at offset 0 with the page size clamped into
[1, 5000] (0 or negative becomes 1); a fetch round stops the loop exactly
when its page is empty, or the running total reaches a positive row cap, or
the page is smaller than the requested page size; otherwise the offset
advances by the number of rows fetched and another fetch is issued. -/
theorem c5_pagination_loop (opts : SplunkDataSourceOptions) :
    (1 ≤ effPageSize opts ∧ effPageSize opts ≤ 5000) ∧
    (∀ v : Int, opts.pageSize = some v → v ≤ 0 → effPageSize opts = 1) ∧
    (∀ pages, (paginate opts pages).2.head? = some (effPageSize opts, 0)) ∧
    (∀ offset total,
      (paginateAux (effPageSize opts) (effMaxRows opts) [] offset total).2
        = [(effPageSize opts, offset)]) ∧
    (∀ rows rest offset total,
      (paginateAux (effPageSize opts) (effMaxRows opts) (rows :: rest) offset total).2 =
        if rows.length = 0 ∨ (0 < effMaxRows opts ∧ effMaxRows opts ≤ total + rows.length)
            ∨ rows.length < effPageSize opts
        then [(effPageSize opts, offset)]
        else (effPageSize opts, offset) ::
          (paginateAux (effPageSize opts) (effMaxRows opts) rest
            (offset + rows.length) (total + rows.length)).2) := by
  refine ⟨⟨?_, ?_⟩, ?_, ?_, ?_, ?_⟩
  · unfold effPageSize
    omega
  · unfold effPageSize
    omega
  · intro v hv hle
    unfold effPageSize
    rw [hv]
    simp only [Option.getD_some]
    omega
  · intro pages
    cases pages with
    | nil => simp [paginate, paginateAux]
    | cons rows rest =>
      simp only [paginate, paginateAux]
      split_ifs <;> simp
  · intro offset total
    simp [paginateAux]
  · intro rows rest offset total
    by_cases h1 : rows.length = 0
    · simp [paginateAux, h1]
    · by_cases h2 : 0 < effMaxRows opts ∧ effMaxRows opts ≤ total + rows.length
      · simp [paginateAux, h1, h2]
      · by_cases h3 : rows.length < effPageSize opts
        · simp [paginateAux, h1, h2, h3]
        · simp [paginateAux, h1, h2, h3]

/-- Witness for C5: a page size configured to a negative value is clamped to 1. -/
theorem c5_witness :
    effPageSize ({ pageSize := some (-3) } : SplunkDataSourceOptions) = 1 :=
  (c5_pagination_loop ({ pageSize := some (-3) })).2.1 (-3) rfl (by decide)

/-- Rows collected by the pagination loop, counted from any loop state in
which the cap has not been reached yet, stay below cap plus page size,
provided every fetched page honours the requested page size. -/
theorem paginateAux_cap_bound (pageSize maxRows : Nat) :
    ∀ (pages : List (List ResultRecord)) (offset total : Nat),
      0 < maxRows → 0 < pageSize → total < maxRows →
      (∀ p, p ∈ pages → p.length ≤ pageSize) →
      total + (paginateAux pageSize maxRows pages offset total).1.length
        ≤ maxRows + pageSize - 1 := by
  intro pages
  induction pages with
  | nil =>
    intro offset total h1 h2 h3 h4
    simp [paginateAux]
    omega
  | cons rows rest ih =>
    intro offset total h1 h2 h3 h4
    have hrows : rows.length ≤ pageSize := h4 rows (List.mem_cons_self rows rest)
    have hrest : ∀ p, p ∈ rest → p.length ≤ pageSize :=
      fun p hp => h4 p (List.mem_cons_of_mem rows hp)
    by_cases hempty : rows.length = 0
    · simp [paginateAux, hempty]
      omega
    · by_cases hcap : 0 < maxRows ∧ maxRows ≤ total + rows.length
      · simp [paginateAux, hempty, hcap]
        omega
      · by_cases hsmall : rows.length < pageSize
        · simp [paginateAux, hempty, hcap, hsmall]
          omega
        · have hlt : total + rows.length < maxRows := by
            rcases Nat.lt_or_ge (total + rows.length) maxRows with hx | hx
            · exact hx
            · exact absurd ⟨h1, hx⟩ hcap
          have hh := ih (offset + rows.length) (total + rows.length) h1 h2 hlt hrest
          simp only [paginateAux, hempty, hcap, hsmall, if_false, if_neg, List.length_append]
          simp [hempty, hcap, hsmall]
          omega

/-- Every frame the target loop emits respects the amended row bound, as
long as every successful engine page honours the requested page size. -/
theorem queryLoop_mem_row_bound (opts : SplunkDataSourceOptions) (now : Int)
    (itp : String → String) (eng : Nat → Except String (List (List ResultRecord)))
    (hcap : 0 < effMaxRows opts)
    (hpages : ∀ i pages, eng i = Except.ok pages →
      ∀ p, p ∈ pages → p.length ≤ effPageSize opts) :
    ∀ (ts : List SplunkQuery) (i : Nat) (fr : Frame),
      fr ∈ queryLoop opts now itp eng i ts →
      frameRowCount fr ≤ effMaxRows opts + effPageSize opts - 1 := by
  intro ts
  induction ts with
  | nil =>
    intro i fr h
    simp [queryLoop] at h
  | cons t rest ih =>
    intro i fr h
    cases hh : t.hide
    · simp [queryLoop, hh] at h
      rcases h with h | h
      · subst h
        unfold processTarget
        cases hv : isQueryDangerous (some (itp (t.queryText.getD ("")))) opts with
        | some v => simp [frameRowCount]
        | none =>
          cases he : eng i with
          | error m => simp [frameRowCount]
          | ok pages =>
            simp only [frameRowCount, List.length_map]
            have hb := paginateAux_cap_bound (effPageSize opts) (effMaxRows opts) pages 0 0
              hcap (effPageSize_pos opts) hcap (hpages i pages he)
            unfold paginate
            omega
      · exact ih (i + 1) fr h
    · simp [queryLoop, hh] at h
      exact ih (i + 1) fr h

/-- Claim C1 (amended): when maxRows is positive and every result page the
engine returns has at most pageSize rows, every frame produced by query has
at most maxRows + pageSize - 1 rows; the cap only stops issuing further
pages, it does not truncate inside a page, so the table can exceed maxRows
by up to pageSize - 1 rows. -/
theorem c1_row_cap_amended (opts : SplunkDataSourceOptions) (now : Int)
    (itp : String → String) (rangeSec : Int) (targets : List SplunkQuery)
    (eng : Nat → Except String (List (List ResultRecord)))
    (hcap : 0 < effMaxRows opts)
    (hpages : ∀ i pages, eng i = Except.ok pages →
      ∀ p, p ∈ pages → p.length ≤ effPageSize opts) :
    ((query opts now itp rangeSec targets eng).map frameRowCount).all
      (fun n => decide (n ≤ effMaxRows opts + effPageSize opts - 1)) = true := by
  have hmem : ∀ fr, fr ∈ query opts now itp rangeSec targets eng →
      frameRowCount fr ≤ effMaxRows opts + effPageSize opts - 1 := by
    intro fr hfr
    unfold query at hfr
    by_cases hr : (opts.safeMode = true) ∧ ((opts.maxRangeSeconds.getD 86400) < rangeSec)
    · rw [if_pos hr] at hfr
      simp at hfr
      subst hfr
      simp [frameRowCount]
    · rw [if_neg hr] at hfr
      exact queryLoop_mem_row_bound opts now itp eng hcap hpages targets 0 fr hfr
  rw [List.all_eq_true]
  intro x hx
  simp only [List.mem_map] at hx
  obtain ⟨fr, hfr, hfx⟩ := hx
  subst hfx
  rw [decide_eq_true_eq]
  exact hmem fr hfr

/-- Counterexample configuration for C1: row cap 50, page size 20. -/
def c1Opts : SplunkDataSourceOptions := { pageSize := some 20, maxRows := some 50 }

/-- Counterexample target for C1. -/
def c1Target : SplunkQuery := { refId := "A", queryText := some ("search index=x") }

/-- Counterexample pages for C1: three full pages of 20 rows each. -/
def c1Pages : List (List ResultRecord) := List.replicate 3 (List.replicate 20 {})

/-- Claim C1 counterexample: with a row cap of 50 and a page size of 20,
three full pages of 20 rows produce a 60-row output table, strictly more
than maxRows, refuting the claim as stated at a concrete input. -/
theorem c1_counterexample :
    0 < effMaxRows c1Opts ∧
    effMaxRows c1Opts <
      ((query c1Opts 0 (fun s => s) 0 [c1Target] (fun _ => Except.ok c1Pages)).map
        frameRowCount).headD 0 := by
  constructor
  · decide
  · decide

/-- Witness for C1 (amended) at the counterexample input: 60 rows do stay
within the amended bound 50 + 20 - 1. -/
theorem c1_witness :
    ((query c1Opts 0 (fun s => s) 0 [c1Target] (fun _ => Except.ok c1Pages)).map
      frameRowCount).all
      (fun n => decide (n ≤ effMaxRows c1Opts + effPageSize c1Opts - 1)) = true := by
  apply c1_row_cap_amended
  · decide
  · intro i pages h p hp
    cases h
    have hp2 : p = List.replicate 20 ({} : ResultRecord) := by
      simpa [c1Pages, List.mem_replicate] using hp
    subst hp2
    decide

/-- The target loop equals, for any starting index, the per-target map over
the index-tagged non-hidden targets. -/
theorem queryLoop_eq_enumFrom (opts : SplunkDataSourceOptions) (now : Int)
    (itp : String → String) (eng : Nat → Except String (List (List ResultRecord))) :
    ∀ (ts : List SplunkQuery) (i : Nat),
      queryLoop opts now itp eng i ts =
        ((List.enumFrom i ts).filter (fun p => !p.2.hide)).map
          (fun p => processTarget opts now itp p.2 (eng p.1)) := by
  intro ts
  induction ts with
  | nil =>
    intro i
    simp [queryLoop]
  | cons t rest ih =>
    intro i
    cases hh : t.hide
    · simp [queryLoop, hh, List.enumFrom, ih (i + 1)]
    · simp [queryLoop, hh, List.enumFrom, ih (i + 1)]

/-- Claim C6: when the safe-mode time-range check passes, query returns
exactly the list obtained by mapping each non-hidden target, in input
order, to its own frame (table, warning or error), each frame depending
only on that target and its own engine oracle; hidden targets contribute
nothing and one target's failure cannot change any sibling's frame. -/
theorem c6_one_frame_per_target (opts : SplunkDataSourceOptions) (now : Int)
    (itp : String → String) (rangeSec : Int) (targets : List SplunkQuery)
    (eng : Nat → Except String (List (List ResultRecord)))
    (hrange : ¬((opts.safeMode = true) ∧ ((opts.maxRangeSeconds.getD 86400) < rangeSec))) :
    query opts now itp rangeSec targets eng =
      ((List.enum targets).filter (fun p => !p.2.hide)).map
        (fun p => processTarget opts now itp p.2 (eng p.1)) := by
  unfold query
  rw [if_neg hrange, queryLoop_eq_enumFrom]
  rfl

/-- Witness for C6 at a concrete input: an empty batch yields no frames. -/
theorem c6_witness :
    query ({} : SplunkDataSourceOptions) 0 (fun s => s) 0 []
      (fun _ => Except.error ("x")) = [] := by
  rw [c6_one_frame_per_target ({} : SplunkDataSourceOptions) 0 (fun s => s) 0 []
    (fun _ => Except.error ("x")) (by simp)]
  rfl

/-- Dropping nulls and empties then duplicating, expressed two equivalent
ways on a projected column. -/
theorem metricFilterChain (l : List (Option String)) :
    (l.filter (fun v => match v with
        | some s => !s.isEmpty
        | none => false)).map (fun v => (v.getD (""), v.getD (""))) =
      ((l.filterMap id).filter (fun s => !s.isEmpty)).map (fun s => (s, s)) := by
  induction l with
  | nil => rfl
  | cons a rest ih =>
    cases a with
    | none => simpa using ih
    | some s =>
      cases hs : s.isEmpty
      · simp [hs, ih]
      · simp [hs, ih]

/-- Counterexample payload for C7: two rows carrying the same value in the
first (and only) result field. -/
def c7Res : SplunkResultsData :=
  { results := some [[(("f"), some ("x"))], [(("f"), some ("x"))]],
    fields := some [("f")] }

/-- Claim C7 counterexample: metricFindQuery performs no deduplication, so
two rows with the same first-field value yield the pair twice and the
returned list is not distinct, refuting the claim as stated. -/
theorem c7_counterexample :
    metricFindValues c7Res = [(("x"), ("x")), (("x"), ("x"))] ∧
    ¬ (metricFindValues c7Res).Nodup := by
  constructor
  · decide
  · decide

/-- Claim C7 (amended): for a fetched result set whose field list starts
with a non-empty field name and whose row list is non-empty, the values of
that first field are returned as (text, value) pairs in first-seen order
with null and empty values filtered out; duplicates are preserved, not
removed. -/
theorem c7_metric_find_amended (res : SplunkResultsData) (f : String) (fs : List String)
    (rows : List (List (String × Option String)))
    (hf : res.fields = some (f :: fs)) (hfne : f.isEmpty = false)
    (hrows : res.results = some rows) (hne : rows.length ≠ 0) :
    metricFindValues res =
      (((rows.map (fun r => recLookup r f)).filterMap id).filter
        (fun s => !s.isEmpty)).map (fun s => (s, s)) := by
  unfold metricFindValues
  rw [hf, hrows]
  simp only [Option.getD_some]
  rw [if_neg hne]
  simp only [List.head?_cons]
  have h1 : jsFalsyStr (some f) = false := by simp [jsFalsyStr, hfne]
  rw [h1]
  simp only [Bool.false_eq_true, if_false, h1, Option.getD_some]
  exact metricFilterChain (rows.map (fun r => recLookup r f))

/-- Witness input for C7 (amended): a one-row result set. -/
def c7OneRowRes : SplunkResultsData :=
  { results := some [[(("a"), some ("v"))]],
    fields := some [("a")] }

/-- Witness for C7 (amended) at a concrete one-row result set. -/
theorem c7_witness :
    metricFindValues c7OneRowRes = [(("v"), ("v"))] := by
  rw [c7_metric_find_amended c7OneRowRes ("a") [] [[(("a"), some ("v"))]]
    rfl (by decide) rfl (by decide)]
  decide

/-- Claim C8: metricFindQuery never propagates an error; a guardrail block
(empty or deny-listed interpolated text) and any failure thrown during job
creation, polling or fetching each yield the empty list. -/
theorem c8_metric_find_never_throws (opts : SplunkDataSourceOptions)
    (itp : String → String) (raw : String) (eng : Except String SplunkResultsData)
    (h : (isQueryDangerous (some (itp raw)) opts).isSome = true ∨
      ∃ e, eng = Except.error e) :
    metricFindQuery opts itp raw eng = [] := by
  unfold metricFindQuery
  rcases h with h | ⟨e, he⟩
  · cases hv : isQueryDangerous (some (itp raw)) opts with
    | none =>
      rw [hv] at h
      simp at h
    | some v => rfl
  · subst he
    cases hv : isQueryDangerous (some (itp raw)) opts with
    | none => rfl
    | some v => rfl

/-- Witness for C8: the empty template is blocked by the empty-query
guardrail and yields the empty list even on a healthy engine. -/
theorem c8_witness :
    metricFindQuery ({} : SplunkDataSourceOptions) (fun s => s) ("")
      (Except.ok ({} : SplunkResultsData)) = [] :=
  c8_metric_find_never_throws {} (fun s => s) ("") (Except.ok {}) (Or.inl (by decide))

/-- Counterexample record for C9: the time field is present and parses to
the epoch instant 0. -/
def c9Rec : ResultRecord := { timeField := some 0 }

/-- Claim C9 counterexample: a record whose time field parses to 0 (the
epoch) does not keep the parsed value; the truthiness test in the source
(parse result or-else now) sends it to the current instant instead,
refuting the claim as stated at a concrete input. -/
theorem c9_counterexample :
    c9Rec.timeField = some 0 ∧ (mapRow 123 c9Rec).time = 123 ∧
      ¬((mapRow 123 c9Rec).time = 0) := by
  refine ⟨rfl, ?_, ?_⟩ <;> decide

/-- Claim C9 (amended): the mapped time is the parsed time-field value
whenever that field is present and parses to a nonzero value, and the
current instant when the field is absent, unparsable, or parses to 0; host
is the first non-missing of the host, sourceHost and hosts fields, else
empty; message is the first non-missing of the raw, message and msg
fields, else empty. -/
theorem c9_row_mapper_amended (now : Int) (r : ResultRecord) :
    (∀ v : Int, r.timeField = some v → v ≠ 0 → (mapRow now r).time = v) ∧
    ((r.timeField = none ∨ r.timeField = some 0) → (mapRow now r).time = now) ∧
    (∀ h, r.host = some h → (mapRow now r).host = h) ∧
    (r.host = none → ∀ h, r.sourceHost = some h → (mapRow now r).host = h) ∧
    (r.host = none → r.sourceHost = none → ∀ h, r.hosts = some h → (mapRow now r).host = h) ∧
    (r.host = none → r.sourceHost = none → r.hosts = none → (mapRow now r).host = "") ∧
    (∀ m, r.rawField = some m → (mapRow now r).message = m) ∧
    (r.rawField = none → ∀ m, r.message = some m → (mapRow now r).message = m) ∧
    (r.rawField = none → r.message = none → ∀ m, r.msgField = some m →
      (mapRow now r).message = m) ∧
    (r.rawField = none → r.message = none → r.msgField = none →
      (mapRow now r).message = "") := by
  refine ⟨?_, ?_, ?_, ?_, ?_, ?_, ?_, ?_, ?_, ?_⟩
  · intro v hv hnz
    simp [mapRow, hv, hnz]
  · intro hv
    rcases hv with hv | hv <;> simp [mapRow, hv]
  · intro h hh
    simp [mapRow, jsOr, hh]
  · intro h1 h hh
    simp [mapRow, jsOr, h1, hh]
  · intro h1 h2 h hh
    simp [mapRow, jsOr, h1, h2, hh]
  · intro h1 h2 h3
    simp [mapRow, jsOr, h1, h2, h3]
  · intro m hm
    simp [mapRow, jsOr, hm]
  · intro h1 m hm
    simp [mapRow, jsOr, h1, hm]
  · intro h1 h2 m hm
    simp [mapRow, jsOr, h1, h2, hm]
  · intro h1 h2 h3
    simp [mapRow, jsOr, h1, h2, h3]

/-- Witness record for C9 (amended). -/
def c9WRec : ResultRecord := { timeField := some 7, host := some ("h1") }

/-- Witness for C9 (amended): a nonzero parsed time is kept, and the
primary host field wins. -/
theorem c9_witness :
    (mapRow 5 c9WRec).time = 7 ∧ (mapRow 5 c9WRec).host = "h1" :=
  ⟨(c9_row_mapper_amended 5 c9WRec).1 7 rfl (by decide),
    (c9_row_mapper_amended 5 c9WRec).2.2.1 ("h1") rfl⟩

/-- Claim C10: waitForJob clamps the poll interval to at least 100 ms and
the poll budget to at least 1, so at least one status check always occurs;
query clamps maxRows to at least 0, so a negative configured row cap
behaves as 0, i.e. unlimited. -/
theorem c10_config_clamps (opts : SplunkDataSourceOptions)
    (statusAt : Nat → SplunkJobStatusData) (v : Int)
    (hv : opts.maxRows = some v) (hneg : v ≤ 0) :
    100 ≤ effPollMs opts ∧ 1 ≤ effMaxPolls opts ∧ 1 ≤ waitChecks opts statusAt ∧
      effMaxRows opts = 0 := by
  refine ⟨?_, ?_, ?_, ?_⟩
  · unfold effPollMs
    exact le_max_left _ _
  · unfold effMaxPolls
    omega
  · unfold waitChecks
    cases hw : waitForJob opts statusAt with
    | error e =>
      show 1 ≤ effMaxPolls opts
      unfold effMaxPolls
      omega
    | ok n =>
      show 1 ≤ n
      unfold waitForJob at hw
      obtain ⟨h1, _, _, _⟩ := waitAux_ok_spec statusAt (effMaxPolls opts) 0 n hw
      omega
  · unfold effMaxRows
    rw [hv]
    simp only [Option.getD_some]
    omega

/-- Witness for C10 at a concrete configuration with a negative row cap. -/
theorem c10_witness :
    100 ≤ effPollMs ({ maxRows := some (-5) } : SplunkDataSourceOptions) ∧
    1 ≤ effMaxPolls ({ maxRows := some (-5) } : SplunkDataSourceOptions) ∧
    1 ≤ waitChecks ({ maxRows := some (-5) } : SplunkDataSourceOptions)
      (fun _ => ({} : SplunkJobStatusData)) ∧
    effMaxRows ({ maxRows := some (-5) } : SplunkDataSourceOptions) = 0 :=
  c10_config_clamps ({ maxRows := some (-5) }) (fun _ => {}) (-5) rfl (by decide)
